import Mathlib

/-!
Verification of the `Fetch` component (src/src/components/Fetch.tsx).

The component owns four pieces of client state (`data`, `loading`,
`isEditModalVisible`, `editingPost`) and mutates them in the resolution
callbacks of four HTTP operations: the initial fetch, `onFinish` (create),
`handleUpdate` and `handleDelete`.  Each operation is embedded as a pure
function from the pre-call state (plus the submitted values and the network
outcome) to the post-call state together with the user-facing feedback it
emits.  The `setLoading(true)` call that precedes each network request is kept
as a separate `...Start` function so that the intermediate state is visible.
-/

/-- The `Post` interface of the source. -/
structure Post where
  userId : Int
  id : Int
  title : String
  body : String
deriving DecidableEq, Repr

/-- The component state: `data`, `loading`, `isEditModalVisible`,
`editingPost` (the two antd form instances hold no state the claims need). -/
structure ClientState where
  data : List Post
  loading : Bool
  isEditModalVisible : Bool
  editingPost : Option Post
deriving DecidableEq, Repr

/-- Resolution of a network call: the promise either fulfils (`.then` runs)
or rejects (`.catch` runs). -/
inductive Outcome
  | success
  | failure
deriving DecidableEq, Repr

/-- User-facing feedback: `message.success(text)` or
`notification.error({message, description})`. -/
inductive Feedback
  | successToast (text : String)
  | errorNotice (title description : String)
deriving DecidableEq, Repr

/-- Embeds `Math.max(...xs)` applied to a spread list.  The source only spreads a
non-empty list (guarded by `data.length > 0`); the `[]` case is arbitrary. -/
def mathMax : List Int → Int
  | [] => 0
  | x :: xs => xs.foldl max x

/-- The ids of a post list, `data.map((post) => post.id)`. -/
def idsOf (data : List Post) : List Int :=
  data.map (fun p => p.id)

/-- Embeds `const maxId = data.length > 0 ? Math.max(...data.map((post) => post.id)) : 0;` -/
def maxIdOf (data : List Post) : Int :=
  if data.length > 0 then mathMax (idsOf data) else 0

/-- Embeds `const newPost = { ...values, id: maxId + 1, userId: 1 };` -/
def newPostOf (data : List Post) (title body : String) : Post :=
  { userId := 1, id := maxIdOf data + 1, title := title, body := body }

/-- Embeds `setLoading(true)` at the top of the mount effect. -/
def fetchStart (s : ClientState) : ClientState :=
  { s with loading := true }

/-- The `.then` handler of the initial `GET`: `setData(res.data); setLoading(false)`. -/
def fetchSuccess (s : ClientState) (response : List Post) : ClientState :=
  { s with data := response, loading := false }

/-- The `.catch` handler of the initial `GET`: error notice, `setLoading(false)`. -/
def fetchFailure (s : ClientState) : ClientState :=
  { s with loading := false }

/-- The whole initial-fetch effect, from the pre-call state and the network
outcome to the final state and the feedback emitted. -/
def fetchOp (s : ClientState) (response : List Post) (o : Outcome) :
    ClientState × Option Feedback :=
  let s1 := fetchStart s
  match o with
  | .success => (fetchSuccess s1 response, none)
  | .failure =>
      (fetchFailure s1,
        some (.errorNotice "Error Fetching Data"
          "Unable to fetch posts from the server. Please try again later."))

/-- Embeds `setLoading(true)` at the top of `onFinish`. -/
def onFinishStart (s : ClientState) : ClientState :=
  { s with loading := true }

/-- The `.then` handler of the `POST`: `setData([...data, newPost])`,
`setLoading(false)`.  The closure captures `data` and `newPost` from the
moment `onFinish` ran; `setLoading` does not change `data`, so the captured
list equals `s.data`. -/
def onFinishSuccess (s : ClientState) (title body : String) : ClientState :=
  { s with data := s.data ++ [newPostOf s.data title body], loading := false }

/-- The `.catch` handler of the `POST`: error notice, `setLoading(false)`. -/
def onFinishFailure (s : ClientState) : ClientState :=
  { s with loading := false }

/-- The whole create operation `onFinish(values)`. -/
def onFinish (s : ClientState) (title body : String) (o : Outcome) :
    ClientState × Feedback :=
  let s1 := onFinishStart s
  match o with
  | .success =>
      (onFinishSuccess s1 title body, .successToast "Post added successfully!")
  | .failure =>
      (onFinishFailure s1,
        .errorNotice "Error Adding Post"
          "Failed to add the post. Please try again later.")

/-- Embeds `handleEdit(post)`: store the post, open the modal (the
`editForm.setFieldsValue` call touches only form state). -/
def handleEdit (s : ClientState) (post : Post) : ClientState :=
  { s with editingPost := some post, isEditModalVisible := true }

/-- Embeds `const updatedPost = { ...editingPost, ...values };` -/
def updatedPostOf (ep : Post) (title body : String) : Post :=
  { ep with title := title, body := body }

/-- The `PUT` request `handleUpdate` issues: the id in the url and the body. -/
structure PutRequest where
  urlId : Int
  payload : Post
deriving DecidableEq, Repr

/-- Everything observable about one run of `handleUpdate`: the resulting
state, the request issued (none when it returned early), and the feedback. -/
structure UpdateResult where
  state : ClientState
  request : Option PutRequest
  feedback : Option Feedback
deriving DecidableEq, Repr

/-- The whole update operation `handleUpdate(values)`.  It returns
immediately when `editingPost` is null; otherwise it issues the `PUT` and, on
success, maps over `data` replacing the post whose id equals
`editingPost.id`, closes the modal and clears `editingPost`.  On failure it
only shows an error notice.  `loading` is never touched. -/
def handleUpdate (s : ClientState) (title body : String) (o : Outcome) :
    UpdateResult :=
  match s.editingPost with
  | none => { state := s, request := none, feedback := none }
  | some ep =>
      let updatedPost := updatedPostOf ep title body
      let req : PutRequest := { urlId := ep.id, payload := updatedPost }
      match o with
      | .success =>
          { state :=
              { s with
                data := s.data.map (fun post =>
                  if post.id == ep.id then updatedPost else post),
                isEditModalVisible := false,
                editingPost := none },
            request := some req,
            feedback := some (.successToast "Post updated successfully!") }
      | .failure =>
          { state := s,
            request := some req,
            feedback := some (.errorNotice "Error Updating Post"
              "Failed to update the post. Please try again later.") }

/-- Embeds `setLoading(true)` at the top of `handleDelete`. -/
def handleDeleteStart (s : ClientState) : ClientState :=
  { s with loading := true }

/-- The `.then` handler of the `DELETE`:
`setData((prevData) => prevData.filter((post) => post.id !== id))`,
`setLoading(false)`. -/
def handleDeleteSuccess (s : ClientState) (id : Int) : ClientState :=
  { s with data := s.data.filter (fun post => post.id != id), loading := false }

/-- The `.catch` handler of the `DELETE`: error notice, `setLoading(false)`. -/
def handleDeleteFailure (s : ClientState) : ClientState :=
  { s with loading := false }

/-- The whole delete operation `handleDelete(id)`. -/
def handleDelete (s : ClientState) (id : Int) (o : Outcome) :
    ClientState × Feedback :=
  let s1 := handleDeleteStart s
  match o with
  | .success =>
      (handleDeleteSuccess s1 id, .successToast "Post deleted successfully!")
  | .failure =>
      (handleDeleteFailure s1,
        .errorNotice "Error Deleting Post"
          "Failed to delete the post. Please try again later.")

/-- The id-uniqueness invariant on the post list. -/
def uniqueIds (data : List Post) : Prop :=
  (idsOf data).Nodup

instance (data : List Post) : Decidable (uniqueIds data) := by
  unfold uniqueIds; infer_instance

/-- Concrete posts used by witnesses. -/
def postA : Post := { userId := 1, id := 1, title := "a", body := "x" }

def postB : Post := { userId := 1, id := 3, title := "c", body := "y" }

/-- A concrete state used by witnesses. -/
def stateAB : ClientState :=
  { data := [postA, postB], loading := false,
    isEditModalVisible := false, editingPost := none }

/-- A concrete state whose edit modal is open on `postA` (a list member). -/
def stateEditingA : ClientState :=
  { data := [postA, postB], loading := false,
    isEditModalVisible := true, editingPost := some postA }

/-- A concrete state whose `editingPost` id (1) occurs in no list entry. -/
def stateEditingGhost : ClientState :=
  { data := [postB], loading := false,
    isEditModalVisible := true, editingPost := some postA }

/-! ### Helper lemmas about `mathMax` and the id list -/

theorem le_foldl_max (xs : List Int) (a : Int) : a ≤ xs.foldl max a := by
  induction xs generalizing a with
  | nil => exact le_refl a
  | cons x xs ih => exact le_trans (le_max_left a x) (ih (max a x))

theorem mem_le_foldl_max (xs : List Int) (a i : Int) (h : i ∈ xs) :
    i ≤ xs.foldl max a := by
  induction xs generalizing a with
  | nil => cases h
  | cons x xs ih =>
    cases h with
    | head => exact le_trans (le_max_right a i) (le_foldl_max xs (max a i))
    | tail _ h => exact ih (max a x) h

theorem le_mathMax (xs : List Int) (i : Int) (h : i ∈ xs) : i ≤ mathMax xs := by
  cases xs with
  | nil => cases h
  | cons x xs =>
    cases h with
    | head => exact le_foldl_max xs i
    | tail _ h => exact mem_le_foldl_max xs x i h

theorem foldl_max_mem (xs : List Int) (a : Int) :
    xs.foldl max a = a ∨ xs.foldl max a ∈ xs := by
  induction xs generalizing a with
  | nil => exact Or.inl rfl
  | cons x xs ih =>
    rcases ih (max a x) with h | h
    · rcases max_choice a x with h2 | h2
      · exact Or.inl (by rw [List.foldl_cons, h, h2])
      · exact Or.inr (by rw [List.foldl_cons, h, h2]; exact List.mem_cons_self x xs)
    · exact Or.inr (List.mem_cons_of_mem x h)

theorem mathMax_mem (xs : List Int) (h : xs ≠ []) : mathMax xs ∈ xs := by
  cases xs with
  | nil => exact absurd rfl h
  | cons x xs =>
    show xs.foldl max x ∈ x :: xs
    rcases foldl_max_mem xs x with h2 | h2
    · rw [h2]; exact List.mem_cons_self x xs
    · exact List.mem_cons_of_mem x h2

theorem le_maxIdOf (data : List Post) (i : Int) (h : i ∈ idsOf data) :
    i ≤ maxIdOf data := by
  cases data with
  | nil => cases h
  | cons p ps =>
    unfold maxIdOf
    rw [if_pos (by simp)]
    exact le_mathMax _ i h

theorem newPostOf_id_not_mem (data : List Post) (title body : String) :
    (newPostOf data title body).id ∉ idsOf data := by
  intro hmem
  have h1 : (newPostOf data title body).id ≤ maxIdOf data :=
    le_maxIdOf data _ hmem
  have h2 : (newPostOf data title body).id = maxIdOf data + 1 := rfl
  omega

/-- Claim C1: for every posts list, the synthetic id computed by create
(`onFinish`) equals `1 + max(ids in posts)` when the list is non-empty (the
id minus one is a member of the id list and bounds every member from above),
and equals `1` when the list is empty. -/
theorem create_synthetic_id (data : List Post) (title body : String) :
    (data = [] → (newPostOf data title body).id = 1) ∧
    (data ≠ [] →
      (newPostOf data title body).id - 1 ∈ idsOf data ∧
      ∀ i ∈ idsOf data, i ≤ (newPostOf data title body).id - 1) := by
  constructor
  · intro h
    subst h
    rfl
  · intro h
    have hlen : data.length > 0 := List.length_pos.mpr h
    have hids : idsOf data ≠ [] := by
      intro hnil
      have : data = [] := List.map_eq_nil_iff.mp hnil
      exact h this
    have hmax : maxIdOf data = mathMax (idsOf data) := by
      unfold maxIdOf
      rw [if_pos hlen]
    have hid : (newPostOf data title body).id = maxIdOf data + 1 := rfl
    constructor
    · rw [hid, hmax]
      simpa using mathMax_mem (idsOf data) hids
    · intro i hi
      rw [hid, hmax]
      simpa using le_mathMax (idsOf data) i hi

/-- Witness for C1 at the concrete non-empty list `[postA, postB]`. -/
theorem create_synthetic_id_witness :
    (newPostOf [postA, postB] "t" "b").id - 1 ∈ idsOf [postA, postB] :=
  ((create_synthetic_id [postA, postB] "t" "b").2 (by decide)).1

/-! ### Success-branch equations for the three mutating operations -/

theorem onFinish_success_data (s : ClientState) (title body : String) :
    (onFinish s title body .success).1.data =
      s.data ++ [newPostOf s.data title body] := rfl

theorem handleDelete_success_data (s : ClientState) (k : Int) :
    (handleDelete s k .success).1.data =
      s.data.filter (fun post => post.id != k) := rfl

theorem handleUpdate_success_state (s : ClientState) (title body : String)
    (ep : Post) (hep : s.editingPost = some ep) :
    (handleUpdate s title body .success).state =
      { s with
        data := s.data.map (fun post =>
          if post.id == ep.id then updatedPostOf ep title body else post),
        isEditModalVisible := false,
        editingPost := none } := by
  unfold handleUpdate
  rw [hep]

theorem handleUpdate_nullGuard (s : ClientState) (title body : String)
    (o : Outcome) (hep : s.editingPost = none) :
    handleUpdate s title body o =
      { state := s, request := none, feedback := none } := by
  unfold handleUpdate
  rw [hep]

theorem idsOf_append (a b : List Post) :
    idsOf (a ++ b) = idsOf a ++ idsOf b := by
  unfold idsOf
  exact List.map_append _ a b

theorem idsOf_update_map (data : List Post) (ep : Post) (title body : String) :
    idsOf (data.map (fun post =>
        if post.id == ep.id then updatedPostOf ep title body else post)) =
      idsOf data := by
  unfold idsOf
  rw [List.map_map]
  apply List.map_congr_left
  intro p _
  by_cases hp : p.id = ep.id
  · simp [Function.comp, hp, updatedPostOf]
  · simp [Function.comp, beq_iff_eq, hp]

/-- Claim C2: id uniqueness is an invariant: if no two entries of `s.data`
share an id, then the list produced by a successful create, a successful
update and a successful delete each still has no two entries sharing an id. -/
theorem mutations_preserve_unique_ids (s : ClientState) (title body : String)
    (k : Int) (h : uniqueIds s.data) :
    uniqueIds (onFinish s title body .success).1.data ∧
    uniqueIds (handleUpdate s title body .success).state.data ∧
    uniqueIds (handleDelete s k .success).1.data := by
  refine ⟨?_, ?_, ?_⟩
  · rw [onFinish_success_data]
    unfold uniqueIds
    rw [idsOf_append, List.nodup_append]
    refine ⟨h, List.nodup_singleton _, ?_⟩
    intro i hi hmem
    have : i = (newPostOf s.data title body).id := by simpa [idsOf] using hmem
    subst this
    exact newPostOf_id_not_mem s.data title body hi
  · cases hep : s.editingPost with
    | none => rw [handleUpdate_nullGuard s title body .success hep]; exact h
    | some ep =>
        rw [handleUpdate_success_state s title body ep hep]
        show uniqueIds (s.data.map (fun post =>
          if post.id == ep.id then updatedPostOf ep title body else post))
        unfold uniqueIds
        rw [idsOf_update_map]
        exact h
  · rw [handleDelete_success_data]
    have h2 : (s.data.map (fun p => p.id)).Nodup := h
    have hsub : ((s.data.filter (fun post => post.id != k)).map
        (fun p => p.id)).Sublist (s.data.map (fun p => p.id)) :=
      (List.filter_sublist s.data).map (fun p => p.id)
    exact h2.sublist hsub

/-- Witness for C2 at the concrete state `stateAB` (ids `[1, 3]`). -/
theorem mutations_preserve_unique_ids_witness :
    uniqueIds (onFinish stateAB "t" "b" .success).1.data :=
  (mutations_preserve_unique_ids stateAB "t" "b" 1 (by decide)).1

/-- Claim C3: when `editingPost` is set to a post with id `k` that occurs in
the (duplicate-free) list, a successful update replaces exactly the entry
with id `k` by the merged post — which keeps `editingPost`'s id and userId
and takes title and body from the submitted values — and leaves every other
entry unchanged at its position. -/
theorem update_replaces_by_id (s : ClientState) (title body : String)
    (ep : Post) (k : Int) (hep : s.editingPost = some ep) (hk : ep.id = k)
    (huniq : uniqueIds s.data) (hmem : k ∈ idsOf s.data) :
    (updatedPostOf ep title body).id = ep.id ∧
    (updatedPostOf ep title body).userId = ep.userId ∧
    (updatedPostOf ep title body).title = title ∧
    (updatedPostOf ep title body).body = body ∧
    (handleUpdate s title body .success).state.data.length = s.data.length ∧
    ∀ j : Nat, ∀ p : Post, s.data[j]? = some p →
      (handleUpdate s title body .success).state.data[j]? =
        some (if p.id = k then updatedPostOf ep title body else p) := by
  refine ⟨rfl, rfl, rfl, rfl, ?_, ?_⟩
  · rw [handleUpdate_success_state s title body ep hep]
    exact List.length_map s.data _
  · intro j p hp
    rw [handleUpdate_success_state s title body ep hep]
    show (s.data.map (fun post =>
      if post.id == ep.id then updatedPostOf ep title body else post))[j]? = _
    rw [List.getElem?_map, hp]
    subst hk
    by_cases hpe : p.id = ep.id
    · simp [hpe]
    · simp [beq_iff_eq, hpe]

/-- Witness for C3 at `stateEditingA` (editing `postA`, id 1, present). -/
theorem update_replaces_by_id_witness :
    (handleUpdate stateEditingA "t2" "b2" .success).state.data.length =
      stateEditingA.data.length :=
  (update_replaces_by_id stateEditingA "t2" "b2" postA 1 rfl rfl
    (by decide) (by decide)).2.2.2.2.1

/-- Claim C4: a successful delete of id `k` yields a list with no entry of
id `k`, and every other entry is kept (with its multiplicity) in the same
relative order (the result is a sublist of the original). -/
theorem delete_removes_id (s : ClientState) (k : Int) :
    (handleDelete s k .success).1.data.Sublist s.data ∧
    (∀ p ∈ (handleDelete s k .success).1.data, p.id ≠ k) ∧
    (∀ p ∈ s.data, p.id ≠ k → p ∈ (handleDelete s k .success).1.data) ∧
    (∀ p : Post, p.id ≠ k →
      (handleDelete s k .success).1.data.count p = s.data.count p) := by
  rw [handleDelete_success_data]
  refine ⟨List.filter_sublist s.data, ?_, ?_, ?_⟩
  · intro p hp
    simpa using List.of_mem_filter hp
  · intro p hp hne
    exact List.mem_filter.mpr ⟨hp, by simpa using hne⟩
  · intro p hne
    exact List.count_filter (by simpa using hne)

/-- Witness for C4 at `stateAB`, deleting id 1. -/
theorem delete_removes_id_witness :
    (handleDelete stateAB 1 .success).1.data.Sublist stateAB.data :=
  (delete_removes_id stateAB 1).1

/-- Claim C5: on a failed network call, the posts list after the `.catch`
handler of create, update and delete equals the pre-call list. -/
theorem failure_preserves_posts (s : ClientState) (title body : String)
    (k : Int) :
    (onFinish s title body .failure).1.data = s.data ∧
    (handleUpdate s title body .failure).state.data = s.data ∧
    (handleDelete s k .failure).1.data = s.data := by
  refine ⟨rfl, ?_, rfl⟩
  cases hep : s.editingPost with
  | none => rw [handleUpdate_nullGuard s title body .failure hep]
  | some ep =>
      unfold handleUpdate
      rw [hep]

/-- Claim C6: a successful create appends exactly one entry at the end of
the list: the submitted title and body together with the synthetic id and
`userId = 1`. -/
theorem create_appends_exactly_one (s : ClientState) (title body : String) :
    (onFinish s title body .success).1.data.length = s.data.length + 1 ∧
    (onFinish s title body .success).1.data.dropLast = s.data ∧
    (onFinish s title body .success).1.data.getLast? =
      some (newPostOf s.data title body) ∧
    (newPostOf s.data title body).title = title ∧
    (newPostOf s.data title body).body = body ∧
    (newPostOf s.data title body).userId = 1 := by
  rw [onFinish_success_data]
  exact ⟨by simp, List.dropLast_concat .., List.getLast?_concat ..,
    rfl, rfl, rfl⟩

/-- Claim C7: the loading flag is set to true at the start of the initial
fetch, of create and of delete, and set back to false on both the success
and the failure branch of each; `handleUpdate` leaves it unchanged on every
branch. -/
theorem loading_flag_behavior (s : ClientState) (response : List Post)
    (title body : String) (k : Int) (o : Outcome) :
    (fetchStart s).loading = true ∧
    (onFinishStart s).loading = true ∧
    (handleDeleteStart s).loading = true ∧
    (fetchOp s response o).1.loading = false ∧
    (onFinish s title body o).1.loading = false ∧
    (handleDelete s k o).1.loading = false ∧
    (handleUpdate s title body o).state.loading = s.loading := by
  refine ⟨rfl, rfl, rfl, ?_, ?_, ?_, ?_⟩
  · cases o <;> rfl
  · cases o <;> rfl
  · cases o <;> rfl
  · cases hep : s.editingPost with
    | none => rw [handleUpdate_nullGuard s title body o hep]
    | some ep =>
        unfold handleUpdate
        rw [hep]
        cases o <;> rfl

/-- Claim C8: with `editingPost` null, `handleUpdate` issues no request,
emits no feedback, and leaves the whole client state unchanged. -/
theorem update_noop_without_editingPost (s : ClientState)
    (title body : String) (o : Outcome) (h : s.editingPost = none) :
    (handleUpdate s title body o).request = none ∧
    (handleUpdate s title body o).feedback = none ∧
    (handleUpdate s title body o).state = s := by
  unfold handleUpdate
  rw [h]
  exact ⟨rfl, rfl, rfl⟩

/-- Witness for C8 at `stateAB` (whose `editingPost` is none). -/
theorem update_noop_without_editingPost_witness :
    (handleUpdate stateAB "t" "b" .success).state = stateAB :=
  (update_noop_without_editingPost stateAB "t" "b" .success rfl).2.2

/-- Claim C9: a successful delete of an id that occurs in no entry leaves
the posts list exactly unchanged while still emitting the success toast. -/
theorem delete_missing_id (s : ClientState) (k : Int)
    (h : k ∉ idsOf s.data) :
    (handleDelete s k .success).1.data = s.data ∧
    (handleDelete s k .success).2 = .successToast "Post deleted successfully!" := by
  constructor
  · rw [handleDelete_success_data]
    apply List.filter_eq_self.mpr
    intro p hp
    simp only [bne_iff_ne, ne_eq]
    intro he
    exact h (he ▸ List.mem_map_of_mem (fun q => q.id) hp)
  · rfl

/-- Witness for C9 at `stateAB`, deleting the absent id 5. -/
theorem delete_missing_id_witness :
    (handleDelete stateAB 5 .success).1.data = stateAB.data :=
  (delete_missing_id stateAB 5 (by decide)).1

/-- Claim C10: when `editingPost` is set but its id occurs in no entry, a
successful update leaves the posts list exactly unchanged while still
emitting the success toast, closing the modal and clearing `editingPost`. -/
theorem update_missing_id (s : ClientState) (title body : String) (ep : Post)
    (hep : s.editingPost = some ep) (h : ep.id ∉ idsOf s.data) :
    (handleUpdate s title body .success).state.data = s.data ∧
    (handleUpdate s title body .success).state.isEditModalVisible = false ∧
    (handleUpdate s title body .success).state.editingPost = none ∧
    (handleUpdate s title body .success).feedback =
      some (.successToast "Post updated successfully!") := by
  refine ⟨?_, ?_, ?_, ?_⟩
  · rw [handleUpdate_success_state s title body ep hep]
    show s.data.map (fun post =>
      if post.id == ep.id then updatedPostOf ep title body else post) = s.data
    have hid : ∀ p ∈ s.data,
        (if p.id == ep.id then updatedPostOf ep title body else p) = p := by
      intro p hp
      have hne : p.id ≠ ep.id := by
        intro he
        exact h (he ▸ List.mem_map_of_mem (fun q => q.id) hp)
      simp [beq_iff_eq, hne]
    rw [List.map_congr_left hid, List.map_id' s.data]
  · rw [handleUpdate_success_state s title body ep hep]
  · rw [handleUpdate_success_state s title body ep hep]
  · unfold handleUpdate
    rw [hep]

/-- Witness for C10 at `stateEditingGhost` (editing id 1, list ids `[3]`). -/
theorem update_missing_id_witness :
    (handleUpdate stateEditingGhost "t" "b" .success).state.data =
      stateEditingGhost.data :=
  (update_missing_id stateEditingGhost "t" "b" postA rfl (by decide)).1
